import Mathlib

/-!
Shallow embedding of the two scripts of the repository
(`backend/all_board_to_database.py`, the Loader, and
`backend/src/test/hist.py`, the Analyzer), with theorems checking the
specification's claims about them.

The Loader reads `all_boards.csv` with `csv.DictReader`, inserts one row per
data row into the SQLite table `games(game_id INTEGER, half_move_count
INTEGER, victory_state TEXT, fen TEXT)`, and commits once at the end.

The Analyzer reads `paco_2_performance.csv` with pandas, takes the second
column, computes the 50th/90th/95th percentile (linear interpolation, the
pandas default) and the mean of the full column, filters to the values
strictly below the 95th percentile, draws a histogram with annotation texts
`round(p50)` etc., and saves the image.
-/

namespace PacoSako

/-! ### Numeric literals

The same decimal grammar `[sign] (digits[.digits] | .digits) [(e|E)[sign]digits]`
underlies both SQLite's recognition of numeric text (type affinity) and the
number parsing pandas applies to a CSV column, so it is defined once here. -/

/-- The numeric value of a list of decimal digit characters. -/
def digitsToNat (l : List Char) : Nat :=
  l.foldl (fun a c => a * 10 + (c.toNat - 48)) 0

/-- An optionally signed run of decimal digits: the well-formed integer
literals.  `none` for anything else. -/
def parseIntLiteral (s : String) : Option Int :=
  match s.data with
  | '-' :: rest =>
    if rest ≠ [] ∧ rest.all Char.isDigit then some (-(digitsToNat rest : Int)) else none
  | '+' :: rest =>
    if rest ≠ [] ∧ rest.all Char.isDigit then some ((digitsToNat rest : Int)) else none
  | cs =>
    if cs ≠ [] ∧ cs.all Char.isDigit then some ((digitsToNat cs : Int)) else none

/-- The mantissa `digits[.digits]` or `.digits` (at least one digit), with
its exact rational value. -/
def parseMantissa (cs : List Char) : Option ℚ :=
  let ip := cs.takeWhile (fun c => !(c == '.'))
  match cs.dropWhile (fun c => !(c == '.')) with
  | [] =>
    if ip ≠ [] ∧ ip.all Char.isDigit then some ((digitsToNat ip : ℚ)) else none
  | '.' :: fp =>
    if (ip ≠ [] ∨ fp ≠ []) ∧ ip.all Char.isDigit ∧ fp.all Char.isDigit then
      some ((digitsToNat ip : ℚ) + (digitsToNat fp : ℚ) / (10 : ℚ) ^ fp.length)
    else none
  | _ => none

/-- A mantissa with an optional `e`/`E` exponent part. -/
def parseUnsignedNumeric (cs : List Char) : Option ℚ :=
  let mant := cs.takeWhile (fun c => !(c == 'e' || c == 'E'))
  match parseMantissa mant, cs.dropWhile (fun c => !(c == 'e' || c == 'E')) with
  | none, _ => none
  | some m, [] => some m
  | some m, _ :: expPart =>
    match expPart with
    | '-' :: ds =>
      if ds ≠ [] ∧ ds.all Char.isDigit then some (m / (10 : ℚ) ^ digitsToNat ds) else none
    | '+' :: ds =>
      if ds ≠ [] ∧ ds.all Char.isDigit then some (m * (10 : ℚ) ^ digitsToNat ds) else none
    | ds =>
      if ds ≠ [] ∧ ds.all Char.isDigit then some (m * (10 : ℚ) ^ digitsToNat ds) else none

/-- An optionally signed decimal literal with optional fraction and
exponent, with its exact rational value: the numeric strings SQLite converts
under type affinity and pandas parses into a numeric column.  (`nan`/`inf`
forms are handled separately where they apply.) -/
def parseDecimal (s : String) : Option ℚ :=
  match s.data with
  | '-' :: cs => (parseUnsignedNumeric cs).map (fun x => -x)
  | '+' :: cs => parseUnsignedNumeric cs
  | cs => parseUnsignedNumeric cs

/-! ### IEEE-754 binary64 rounding

SQLite stores REAL values as 8-byte IEEE doubles, so converting numeric text
that does not fit an exact 64-bit integer is lossy: the value is rounded to
53 significant bits. -/

/-- The number of binary digits of a natural number, fuel-bounded so that it
reduces by structural recursion (`bitLenAux fuel n = ⌊log2 n⌋ + 1` for
`0 < n ≤ 2 ^ fuel`). -/
def bitLenAux : Nat → Nat → Nat
  | 0, _ => 0
  | _ + 1, 0 => 0
  | fuel + 1, n + 1 => bitLenAux fuel ((n + 1) / 2) + 1

/-- The number of binary digits of a natural number. -/
def bitLen (n : Nat) : Nat := bitLenAux 4096 n

/-- `⌊log₂ v⌋` of a positive rational: the bit-length difference of
numerator and denominator is `⌊log₂ v⌋` or `⌊log₂ v⌋ + 1`, and one
comparison settles which. -/
def floorLog2Rat (v : ℚ) : Int :=
  let k : Int := (bitLen v.num.natAbs : Int) - (bitLen v.den : Int)
  if (2 : ℚ) ^ k ≤ v then k else k - 1

/-- Round a rational to the nearest IEEE-754 binary64 value: 53-bit
significand, ties to even.  Overflow to infinity and subnormal underflow lie
outside the magnitudes any claim exercises and are not modelled. -/
def roundRatToDouble (v : ℚ) : ℚ :=
  if v = 0 then 0
  else
    let w := |v|
    let e : Int := floorLog2Rat w - 52
    let m := w / (2 : ℚ) ^ e
    let n := ⌊m⌋
    let r := m - (n : ℚ)
    let n' := if 1/2 < r ∨ (r = 1/2 ∧ n % 2 = 1) then n + 1 else n
    (if v < 0 then (-1 : ℚ) else 1) * (n' : ℚ) * (2 : ℚ) ^ e

/-! ### SQLite values and type affinity (Loader) -/

/-- A value stored in an SQLite column: SQLite is dynamically typed, a
column holds NULL, INTEGER (64-bit), REAL (binary64) or TEXT regardless of
the declared type. -/
inductive SQLVal where
  | null : SQLVal
  | int (i : Int) : SQLVal
  | real (x : ℚ) : SQLVal
  | text (s : String) : SQLVal
deriving DecidableEq

/-- The smallest signed 64-bit integer. -/
def int64Min : Int := -9223372036854775808

/-- The largest signed 64-bit integer. -/
def int64Max : Int := 9223372036854775807

/-- Storing a Python value in a column declared INTEGER: SQLite's INTEGER
(= NUMERIC) affinity converts well-formed numeric text: an integer literal
in the signed 64-bit range becomes that INTEGER exactly; an integer literal
out of range becomes the nearest (lossy) REAL; real-literal text becomes its
binary64 value, turned into an INTEGER when that is lossless (`'500.0'`
stores INTEGER 500, `'2.5'` stores REAL 2.5).  Any other string is stored
unchanged as TEXT; Python `None` is stored as NULL.  No error is ever
raised. -/
def applyIntegerAffinity : Option String → SQLVal
  | none => .null
  | some s =>
    match parseIntLiteral s with
    | some i =>
      if int64Min ≤ i ∧ i ≤ int64Max then .int i else .real (roundRatToDouble (i : ℚ))
    | none =>
      match parseDecimal s with
      | some v =>
        let d := roundRatToDouble v
        if d.den = 1 ∧ int64Min ≤ d.num ∧ d.num ≤ int64Max then .int d.num else .real d
      | none => .text s

/-- Storing a Python value in a column declared TEXT: strings are stored
unchanged, `None` becomes NULL. -/
def applyTextAffinity : Option String → SQLVal
  | none => .null
  | some s => .text s

/-! ### csv.DictReader and the games table -/

/-- `csv.DictReader` row access `row[col]`: the field at the column's
position in the header line.  The outer `none` models a Python `KeyError`
(the header has no such column); the inner `none` models the default
`restval=None` used when the data row is shorter than the header.  A data
row longer than the header puts the extra fields under the `restkey` key,
which the Loader never reads. -/
def dictGet (header fields : List String) (col : String) : Option (Option String) :=
  match header.findIdx? (· == col) with
  | none => none
  | some i => some fields[i]?

/-- One row of the `games` table. -/
structure GameRow where
  game_id : SQLVal
  half_move_count : SQLVal
  victory_state : SQLVal
  fen : SQLVal
deriving DecidableEq

/-- The header line of `all_boards.csv`, as the Loader's INSERT expects it. -/
def loaderHeader : List String := ["game_id", "half_move_count", "victory_state", "fen"]

/-- The row the Loader's `cur.execute(INSERT ...)` stores for one data row
read by `csv.DictReader`: the four column lookups, each passed through the
affinity of its declared column type. -/
def rowToGame (header fields : List String) : Option GameRow := do
  let gid ← dictGet header fields "game_id"
  let hmc ← dictGet header fields "half_move_count"
  let vs ← dictGet header fields "victory_state"
  let fen ← dictGet header fields "fen"
  pure ⟨applyIntegerAffinity gid, applyIntegerAffinity hmc,
        applyTextAffinity vs, applyTextAffinity fen⟩

/-- `rowToGame` under the real header: what one data row of `all_boards.csv`
becomes in the `games` table. -/
def gameOfFields (fields : List String) : GameRow :=
  ⟨applyIntegerAffinity fields[0]?, applyIntegerAffinity fields[1]?,
   applyTextAffinity fields[2]?, applyTextAffinity fields[3]?⟩

/-- How a Loader run can fail: `row[...]` raising `KeyError`, or
`cur.execute` raising on a downstream I/O failure. -/
inductive LoaderErr where
  | keyError : LoaderErr
  | insertFailed : LoaderErr
deriving DecidableEq

/-- The Loader's `for row in csv_reader` loop: one uncommitted INSERT per
data row, in file order, stopping at the first uncaught exception.
`ioFail i` says whether the i-th `cur.execute` raises. -/
def insertAll (ioFail : Nat → Bool) (header : List String) :
    List (List String) → Nat → Except LoaderErr (List GameRow)
  | [], _ => .ok []
  | fields :: rest, i =>
    match rowToGame header fields with
    | none => .error .keyError
    | some g =>
      if ioFail i then .error .insertFailed
      else
        match insertAll ioFail header rest (i + 1) with
        | .ok gs => .ok (g :: gs)
        | .error e => .error e

/-- The CSV input: the header line and the data rows. -/
structure RawCSV where
  header : List String
  rows : List (List String)

/-- Outcome of one Loader run: the process result and the committed contents
of the `games` table afterwards. -/
structure LoaderRun where
  result : Except LoaderErr Unit
  games : List GameRow

/-- The whole Loader script on a table that already holds `init` (the
`CREATE TABLE IF NOT EXISTS` keeps existing rows): insert every data row,
then a single `conn.commit()`.  An uncaught exception skips the commit, so
the uncommitted inserts are rolled back when the process dies and the table
keeps its previous contents. -/
def runLoader (ioFail : Nat → Bool) (csv : RawCSV) (init : List GameRow) : LoaderRun :=
  match insertAll ioFail csv.header csv.rows 0 with
  | .ok gs => ⟨.ok (), init ++ gs⟩
  | .error e => ⟨.error e, init⟩

/-- `ioFail` for a run in which no `cur.execute` raises. -/
def noFail : Nat → Bool := fun _ => false

/-- SQL `=` between two stored values: INTEGER and REAL compare numerically
across types; NULL compares equal to nothing (not even NULL), so a NULL
never satisfies a WHERE equality. -/
def sqlValEq (a b : SQLVal) : Bool :=
  match a, b with
  | .null, _ => false
  | _, .null => false
  | .int i, .int j => i == j
  | .int i, .real x => (i : ℚ) == x
  | .real x, .int j => x == (j : ℚ)
  | .real x, .real y => x == y
  | .text s, .text t => s == t
  | .int _, .text _ => false
  | .real _, .text _ => false
  | .text _, .int _ => false
  | .text _, .real _ => false

/-- `SELECT * FROM games WHERE game_id = ?`. -/
def selectByGameId (table : List GameRow) (gid : SQLVal) : List GameRow :=
  table.filter (fun g => sqlValEq g.game_id gid)

/-! ### The Analyzer: pandas quantile/mean and the hist.py pipeline -/

/-- Insert a value into a list kept in ascending order. -/
def insertSorted (x : ℚ) : List ℚ → List ℚ
  | [] => [x]
  | y :: ys => if x ≤ y then x :: y :: ys else y :: insertSorted x ys

/-- The sample values in ascending order, as pandas sorts them internally
before interpolating a quantile. -/
def sortQ (l : List ℚ) : List ℚ := l.foldr insertSorted []

/-- The i-th element of a list of samples (0 past the end; every use is
guarded by the list's length). -/
def nth (l : List ℚ) (i : Nat) : ℚ :=
  match l, i with
  | [], _ => 0
  | x :: _, 0 => x
  | _ :: xs, i + 1 => nth xs i

/-- The interpolated value `Series.quantile` computes on a non-empty series
with the default `interpolation='linear'`: with the samples sorted as `s` of
length `n`, the virtual index is `h = q * (n - 1)` and the result
interpolates between `s[floor h]` and the next sample. -/
def interp (l : List ℚ) (q : ℚ) : ℚ :=
  let s := sortQ l
  let n := s.length
  let h : ℚ := q * ((n : ℚ) - 1)
  let i : Nat := (⌊h⌋).toNat
  let lo := nth s i
  let hi := nth s (min (i + 1) (n - 1))
  lo + (h - (i : ℚ)) * (hi - lo)

/-- `Series.quantile q`: `none` models the NaN a quantile of an empty series
returns. -/
def quantile (l : List ℚ) (q : ℚ) : Option ℚ :=
  match l with
  | [] => none
  | _ :: _ => some (interp l q)

/-- `Series.mean`: `none` models the NaN the mean of an empty series
returns. -/
def mean (l : List ℚ) : Option ℚ :=
  match l with
  | [] => none
  | _ :: _ => some (l.sum / (l.length : ℚ))

/-- What hist.py lines 14-20 compute from the timing column. -/
structure AnalyzerStats where
  p50 : Option ℚ
  p90 : Option ℚ
  p95 : Option ℚ
  average_timing : Option ℚ
  filtered : List ℚ
deriving DecidableEq

/-- hist.py lines 14-20 on the numeric samples of the timing column: the
three percentiles and the mean are taken over the full sample set, then
`timings = timings[timings < p95]` keeps exactly the samples strictly below
the 95th percentile.  When the set is empty the percentiles are NaN and
every comparison with NaN is false, so the filter keeps nothing. -/
def analyze (timings : List ℚ) : AnalyzerStats :=
  let p50 := quantile timings (1/2)
  let p90 := quantile timings (9/10)
  let p95 := quantile timings (19/20)
  let avg := mean timings
  let filtered :=
    match p95 with
    | some v => timings.filter (fun x => decide (x < v))
    | none => []
  ⟨p50, p90, p95, avg, filtered⟩

/-- The missing-value strings pandas' reader treats as NaN by default (the
default `na_values` list; shown here are the forms the claims could
exercise). -/
def isNaString (s : String) : Bool :=
  s == "" || s == "nan" || s == "NaN" || s == "NA" || s == "null" || s == "NULL" ||
    s == "n/a" || s == "N/A"

/-- The strings pandas' reader parses as infinite floats inside a numeric
column. -/
def isInfString (s : String) : Bool :=
  s == "inf" || s == "-inf" || s == "+inf" || s == "Inf" || s == "-Inf" ||
    s == "Infinity" || s == "-Infinity" || s == "infinity" || s == "-infinity"

/-- The number of leading index levels `pd.read_csv` infers: when the first
data row has more fields than the header line, the leading extra columns
become the DataFrame's (multi-)index instead of raising an error. -/
def indexLevels (header : List String) (rows : List (List String)) : Nat :=
  match rows with
  | [] => 0
  | r :: _ => r.length - header.length

/-- The field count the parser then expects of every data row: rows with
more fields than this make `pd.read_csv` raise a ParserError (default
`on_bad_lines='error'`); shorter rows are padded with NaN. -/
def expectedFields (header : List String) (rows : List (List String)) : Nat :=
  header.length + indexLevels header rows

/-- `data.iloc[:, 1]` with `k` inferred index levels: the second *named*
column is the field at position `k + 1` of every data row; `none` is the
NaN pandas fills in for a row too short to reach it. -/
def extractCol (k : Nat) (rows : List (List String)) : List (Option String) :=
  rows.map (fun r => r[k + 1]?)

/-- The timing column as pandas holds it: the column has a numeric dtype iff
every present entry is a missing-value form (NaN), an infinity form, or a
numeric literal; a single other entry gives the whole column dtype object
(`none` here), on which the first `Series.quantile` call raises a TypeError.
NaN entries are `some .none` inside a numeric column.  Infinite entries do
not make the dtype object either; their value lies outside this model's
rational sample domain and no claim exercises a run containing one, so they
are carried as missing values. -/
def parseCol : List (Option String) → Option (List (Option ℚ))
  | [] => some []
  | none :: rest => (parseCol rest).map (fun vs => none :: vs)
  | some s :: rest =>
    if isNaString s then (parseCol rest).map (fun vs => none :: vs)
    else if isInfString s then (parseCol rest).map (fun vs => none :: vs)
    else
      match parseDecimal s with
      | none => none
      | some v => (parseCol rest).map (fun vs => some v :: vs)

/-- Where a run of hist.py can die before `plt.savefig`. -/
inductive AnalyzerErr where
  /-- `pd.read_csv` (default `on_bad_lines='error'`) raises a ParserError on
  a data row with more fields than the established column count. -/
  | tooManyFields : AnalyzerErr
  /-- `data.iloc[:, 1]` raises an IndexError when the frame has fewer than
  two columns. -/
  | colOutOfBounds : AnalyzerErr
  /-- `timings.quantile(0.50)` raises a TypeError on a column of dtype
  object. -/
  | quantileObjectDtype : AnalyzerErr
  /-- `round(p50)` raises a ValueError when the percentile is NaN, while the
  annotation string for `plt.text` is being built. -/
  | roundNan : AnalyzerErr
deriving DecidableEq

/-- Outcome of one hist.py run: the statistics if the script got that far,
the uncaught exception if any, and whether `plt.savefig` wrote the image. -/
structure AnalyzerRun where
  stats : Option AnalyzerStats
  err : Option AnalyzerErr
  imageWritten : Bool
deriving DecidableEq

/-- The whole hist.py script: `pd.read_csv` (which turns leading extra
columns of a wide first row into the index, rejects rows wider than the
resulting column count and pads shorter rows with NaN), `data.iloc[:, 1]`,
the percentile and mean computations (which skip NaN entries and raise on a
non-numeric column), the strict filter below the 95th percentile (false for
NaN, so NaN entries leave it too), the annotation texts `round(p50)` etc.
(which raise on NaN), and finally `plt.savefig`. -/
def analyzerRun (header : List String) (rows : List (List String)) : AnalyzerRun :=
  if rows.all (fun r => decide (r.length ≤ expectedFields header rows)) = false then
    ⟨none, some .tooManyFields, false⟩
  else if header.length < 2 then
    ⟨none, some .colOutOfBounds, false⟩
  else
    match parseCol (extractCol (indexLevels header rows) rows) with
    | none => ⟨none, some .quantileObjectDtype, false⟩
    | some vs =>
      let nums := vs.filterMap id
      let st := analyze nums
      match st.p50 with
      | none => ⟨some st, some .roundNan, false⟩
      | some _ => ⟨some st, none, true⟩

/-- The sample set `[1, 2, 3, ..., 100]` of the input-timings claim. -/
def hundredTimings : List ℚ := (List.range 100).map (fun i : ℕ => ((i : ℚ) + 1))

/-! ### Loader lemmas -/

theorem rowToGame_loaderHeader (fields : List String) :
    rowToGame loaderHeader fields = some (gameOfFields fields) := rfl

theorem insertAll_noFail_loaderHeader (rows : List (List String)) (i : Nat) :
    insertAll noFail loaderHeader rows i = .ok (rows.map gameOfFields) := by
  induction rows generalizing i with
  | nil => rfl
  | cons fields rest ih =>
    simp only [insertAll, rowToGame_loaderHeader, noFail, ih, List.map_cons]
    rfl

theorem runLoader_noFail (rows : List (List String)) (init : List GameRow) :
    runLoader noFail ⟨loaderHeader, rows⟩ init = ⟨.ok (), init ++ rows.map gameOfFields⟩ := by
  simp only [runLoader, insertAll_noFail_loaderHeader]

theorem insertAll_ok_length (ioFail : Nat → Bool) (header : List String)
    (rows : List (List String)) (i : Nat) (gs : List GameRow)
    (h : insertAll ioFail header rows i = .ok gs) : gs.length = rows.length := by
  induction rows generalizing i gs with
  | nil =>
    simp only [insertAll] at h
    cases h
    rfl
  | cons fields rest ih =>
    simp only [insertAll] at h
    split at h
    · simp at h
    · split at h
      · simp at h
      · split at h
        · cases h
          next gs' hrec => simp [ih (i + 1) gs' hrec]
        · simp at h

/-! ### The claims about the Loader -/

/-- C1: for every valid CSV input (header row plus any number of data rows),
the Loader appends exactly one row to the games table per data row, in the
same order as the rows appear in the input file, so the number of rows
inserted equals the number of data rows (header excluded); in particular an
input with a header only inserts zero rows. -/
theorem loader_one_row_per_data_row (rows : List (List String)) (init : List GameRow) :
    (runLoader noFail ⟨loaderHeader, rows⟩ init).games = init ++ rows.map gameOfFields ∧
    (runLoader noFail ⟨loaderHeader, rows⟩ init).games.length = init.length + rows.length ∧
    (runLoader noFail ⟨loaderHeader, []⟩ init).games = init := by
  refine ⟨?_, ?_, ?_⟩ <;> simp [runLoader_noFail]

/-- Counterexample to C2 as stated: the record with game_id
`"9223372036854775809"` (2^63 + 1, outside the signed 64-bit range) is
written, but SQLite stores the over-range integer literal as the nearest
lossy REAL (9223372036854775808.0), so the one row the table holds does not
carry the record's game_id value: reading the record back cannot yield
identical field values. -/
theorem loader_round_trip_overflow :
    (runLoader noFail ⟨loaderHeader, [["9223372036854775809", "1", "w", "f"]]⟩ []).games.map
        GameRow.game_id ≠ [SQLVal.int 9223372036854775809] ∧
    (runLoader noFail ⟨loaderHeader, [["9223372036854775809", "1", "w", "f"]]⟩ []).games.length
      = 1 := by
  constructor
  · have hg : (runLoader noFail
        ⟨loaderHeader, [["9223372036854775809", "1", "w", "f"]]⟩ []).games.map
          GameRow.game_id =
        [SQLVal.real (roundRatToDouble ((9223372036854775809 : Int) : ℚ))] := rfl
    rw [hg]
    simp
  · rfl

/-- C2 amended: a record written by the Loader whose numeric fields are
integer literals within the signed 64-bit range, when read back from the
games table by its game_id, has all four field values (game_id,
half_move_count, victory_state, fen) unchanged.  (Numeric fields outside
that range are stored as approximate REALs and need not round-trip.) -/
theorem loader_round_trip (rows : List (List String)) (g h v f : String) (gi hi : Int)
    (hmem : [g, h, v, f] ∈ rows)
    (hg : parseIntLiteral g = some gi) (hgr : int64Min ≤ gi ∧ gi ≤ int64Max)
    (hh : parseIntLiteral h = some hi) (hhr : int64Min ≤ hi ∧ hi ≤ int64Max) :
    (⟨.int gi, .int hi, .text v, .text f⟩ : GameRow) ∈
      selectByGameId (runLoader noFail ⟨loaderHeader, rows⟩ []).games (.int gi) := by
  have hgame : gameOfFields [g, h, v, f] = ⟨.int gi, .int hi, .text v, .text f⟩ := by
    simp [gameOfFields, applyIntegerAffinity, applyTextAffinity, hg, hh, hgr, hhr]
  rw [runLoader_noFail]
  refine List.mem_filter.mpr ⟨?_, ?_⟩
  · rw [List.nil_append, ← hgame]
    exact List.mem_map_of_mem gameOfFields hmem
  · simp [sqlValEq]

/-- Witness for the amended C2 at a concrete CSV row. -/
theorem loader_round_trip_witness :
    (⟨.int 7, .int 42, .text "WhiteWins", .text "somefen"⟩ : GameRow) ∈
      selectByGameId
        (runLoader noFail ⟨loaderHeader, [["7", "42", "WhiteWins", "somefen"]]⟩ []).games
        (.int 7) :=
  loader_round_trip [["7", "42", "WhiteWins", "somefen"]] "7" "42" "WhiteWins" "somefen"
    7 42 (by decide) (by decide) (by decide) (by decide) (by decide)

/-- C3: the Loader commits in a single commit at the end of the run: either
every input row is persisted (one table row per data row), or, when an
insertion fails, the run fails and the table keeps exactly its previous
contents. -/
theorem loader_commit_atomic (ioFail : Nat → Bool) (csv : RawCSV) (init : List GameRow) :
    ((runLoader ioFail csv init).result = .ok () ∧
      ∃ gs : List GameRow, gs.length = csv.rows.length ∧
        (runLoader ioFail csv init).games = init ++ gs) ∨
    (∃ e : LoaderErr, (runLoader ioFail csv init).result = .error e ∧
      (runLoader ioFail csv init).games = init) := by
  cases hins : insertAll ioFail csv.header csv.rows 0 with
  | ok gs =>
    left
    refine ⟨?_, gs, insertAll_ok_length ioFail csv.header csv.rows 0 gs hins, ?_⟩ <;>
      simp [runLoader, hins]
  | error e =>
    right
    exact ⟨e, by simp [runLoader, hins], by simp [runLoader, hins]⟩

theorem quantile_ne_nil (l : List ℚ) (q : ℚ) (hne : l ≠ []) :
    quantile l q = some (interp l q) := by
  cases l with
  | nil => exact absurd rfl hne
  | cons x xs => rfl

theorem length_filter_lt_length_of_mem (l : List ℚ) (p : ℚ → Bool) (x : ℚ)
    (hx : x ∈ l) (hpx : p x = false) : (l.filter p).length < l.length := by
  induction l with
  | nil => simp at hx
  | cons y ys ih =>
    rcases List.mem_cons.mp hx with rfl | hmem
    · rw [List.filter_cons_of_neg (by simp [hpx])]
      exact Nat.lt_succ_of_le (List.length_filter_le p ys)
    · cases hpy : p y with
      | true =>
        rw [List.filter_cons_of_pos (by simp [hpy])]
        simpa using ih hmem
      | false =>
        rw [List.filter_cons_of_neg (by simp [hpy])]
        exact Nat.lt_succ_of_le (Nat.le_of_lt (ih hmem))

theorem sortQ_of_chain (l : List ℚ) (h : l.Chain' (· ≤ ·)) : sortQ l = l := by
  induction l with
  | nil => rfl
  | cons x xs ih =>
    cases xs with
    | nil => rfl
    | cons y ys =>
      have hxy : x ≤ y := (List.chain'_cons.mp h).1
      have htl : (y :: ys).Chain' (· ≤ ·) := (List.chain'_cons.mp h).2
      show insertSorted x (sortQ (y :: ys)) = x :: y :: ys
      rw [ih htl]
      simp [insertSorted, hxy]

theorem nth_eq_getElem (l : List ℚ) (i : Nat) (h : i < l.length) : nth l i = l[i] := by
  induction l generalizing i with
  | nil => simp at h
  | cons x xs ih =>
    cases i with
    | zero => rfl
    | succ n =>
      have hn : n < xs.length := by simpa using h
      simpa [nth] using ih n hn

theorem interp_singleton (x q : ℚ) : interp [x] q = x := by
  simp only [interp, sortQ, List.foldr, insertSorted]
  norm_num [nth, Int.toNat]

/-! ### The claims about the Analyzer -/

/-- C5: on a non-empty sample set the Analyzer takes the 50th, 90th and 95th
percentile and the mean over the full sample set, and the filtered view it
then forms contains exactly the samples strictly below the 95th percentile
(samples at or above it are excluded). -/
theorem analyze_full_set_then_filter (l : List ℚ) (hne : l ≠ []) :
    (analyze l).p50 = quantile l (1/2) ∧
    (analyze l).p90 = quantile l (9/10) ∧
    (analyze l).p95 = quantile l (19/20) ∧
    (analyze l).average_timing = mean l ∧
    ∃ v : ℚ, quantile l (19/20) = some v ∧
      (analyze l).filtered = l.filter (fun x => decide (x < v)) ∧
      ∀ x : ℚ, x ∈ (analyze l).filtered ↔ x ∈ l ∧ x < v := by
  have h95 := quantile_ne_nil l (19/20) hne
  refine ⟨rfl, rfl, rfl, rfl, interp l (19/20), h95, ?_, ?_⟩
  · simp only [analyze, h95]
  · intro x
    simp only [analyze, h95, List.mem_filter, decide_eq_true_eq]

/-- Witness for C5 at the concrete sample set `[1, 2, 3]`. -/
theorem analyze_full_set_then_filter_witness :
    ∃ v : ℚ, quantile [1, 2, 3] (19/20) = some v ∧
      (analyze [1, 2, 3]).filtered = [1, 2, 3].filter (fun x => decide (x < v)) ∧
      ∀ x : ℚ, x ∈ (analyze [1, 2, 3]).filtered ↔ x ∈ [1, 2, 3] ∧ x < v :=
  (analyze_full_set_then_filter [1, 2, 3] (by decide)).2.2.2.2

/-- C6: when the 95th percentile of a non-empty sample set is strictly below
the set's maximum value, the filtered set has strictly fewer samples than
the original set. -/
theorem analyze_filter_shrinks (l : List ℚ) (m v : ℚ)
    (hm : m ∈ l) (hub : ∀ x ∈ l, x ≤ m)
    (h95 : quantile l (19/20) = some v) (hvm : v < m) :
    (analyze l).filtered.length < l.length := by
  have hfil : (analyze l).filtered = l.filter (fun x => decide (x < v)) := by
    simp only [analyze, h95]
  rw [hfil]
  exact length_filter_lt_length_of_mem l _ m hm (decide_eq_false (lt_asymm hvm))

/-- Witness for C6 at the concrete sample set `[0, 0, 0, 100]`, whose 95th
percentile interpolates to 85, strictly below the maximum 100. -/
theorem analyze_filter_shrinks_witness :
    (analyze [0, 0, 0, 100]).filtered.length < ([0, 0, 0, 100] : List ℚ).length := by
  have h95 : quantile [0, 0, 0, 100] (19/20) = some 85 := by
    rw [quantile_ne_nil [0, 0, 0, 100] (19/20) (by decide)]
    have hs : sortQ [0, 0, 0, 100] = [0, 0, 0, 100] := by norm_num [sortQ, insertSorted]
    simp only [interp, hs]
    norm_num [nth, Int.toNat]
  exact analyze_filter_shrinks [0, 0, 0, 100] 100 85 (by decide) (by decide) h95 (by norm_num)

/-- C7: on the input sample `[1, 2, ..., 100]` the computed 50th percentile
is 50 or 50.5 (it is 50.5 under the linear interpolation pandas defaults
to), and the computed 95th percentile is within 1 of 95 (it is 95.05). -/
theorem quantiles_of_one_to_hundred :
    (quantile hundredTimings (1/2) = some 50 ∨ quantile hundredTimings (1/2) = some (101/2)) ∧
    ∃ v : ℚ, quantile hundredTimings (19/20) = some v ∧ |v - 95| ≤ 1 := by
  have hlen : hundredTimings.length = 100 := by
    simp only [hundredTimings, List.length_map, List.length_range]
  have hne : hundredTimings ≠ [] := List.ne_nil_of_length_pos (by rw [hlen]; norm_num)
  have hchain : hundredTimings.Chain' (· ≤ ·) := by
    have hpw : hundredTimings.Pairwise (· ≤ ·) := by
      rw [hundredTimings, List.pairwise_map]
      refine (List.pairwise_lt_range 100).imp ?_
      intro a b hab
      have h : (a : ℚ) < (b : ℚ) := by exact_mod_cast hab
      linarith
    exact hpw.chain'
  have hsort := sortQ_of_chain _ hchain
  have h49 : nth hundredTimings 49 = 50 := by
    rw [nth_eq_getElem _ _ (by rw [hlen]; norm_num)]
    simp only [hundredTimings, List.getElem_map, List.getElem_range]
    norm_num
  have h50 : nth hundredTimings 50 = 51 := by
    rw [nth_eq_getElem _ _ (by rw [hlen]; norm_num)]
    simp only [hundredTimings, List.getElem_map, List.getElem_range]
    norm_num
  have h94 : nth hundredTimings 94 = 95 := by
    rw [nth_eq_getElem _ _ (by rw [hlen]; norm_num)]
    simp only [hundredTimings, List.getElem_map, List.getElem_range]
    norm_num
  have h95n : nth hundredTimings 95 = 96 := by
    rw [nth_eq_getElem _ _ (by rw [hlen]; norm_num)]
    simp only [hundredTimings, List.getElem_map, List.getElem_range]
    norm_num
  constructor
  · right
    rw [quantile_ne_nil _ _ hne]
    have h_eq : interp hundredTimings (1/2) = 101/2 := by
      simp only [interp, hsort, hlen, Nat.cast_ofNat]
      norm_num [Int.toNat, h49, h50]
    rw [h_eq]
  · refine ⟨interp hundredTimings (19/20), quantile_ne_nil _ _ hne, ?_⟩
    have h_eq : interp hundredTimings (19/20) = 1901/20 := by
      simp only [interp, hsort, hlen, Nat.cast_ofNat]
      norm_num [Int.toNat, h94, h95n]
    rw [h_eq]
    rw [abs_le]
    constructor <;> norm_num

/-- C8: on an input with a header row and no data rows the Analyzer fails
(the percentiles of the empty sample set are NaN, and building the
annotation string `round(p50)` raises) without writing the output image, and
without producing an empty plot silently. -/
theorem analyzer_empty_input_fails (header : List String) (h2 : 2 ≤ header.length) :
    analyzerRun header [] =
      ⟨some ⟨none, none, none, none, []⟩, some .roundNan, false⟩ := by
  simp only [analyzerRun, List.all_nil]
  rw [if_neg (by simp), if_neg (Nat.not_lt.mpr h2)]
  rfl

/-- Witness for C8 at a concrete two-column header. -/
theorem analyzer_empty_input_fails_witness :
    analyzerRun ["name", "timing"] [] =
      ⟨some ⟨none, none, none, none, []⟩, some .roundNan, false⟩ :=
  analyzer_empty_input_fails ["name", "timing"] (by decide)

/-- Counterexample to C10 as stated: the two inputs below have the same
number of rows and identical second columns and differ only in the presence
of a third column, yet both runs complete and their statistics differ:
on the first input `pd.read_csv` turns the leading extra column of the wide
data row into the DataFrame's index, so `iloc[:, 1]` reads the shifted field
`"9"` rather than `"5"`, and the computed median is 9 instead of 5. -/
theorem analyzer_other_columns_interfere :
    ([["1", "5", "9"]] : List (List String)).map (fun r => r[1]?) =
      ([["1", "5"]] : List (List String)).map (fun r => r[1]?) ∧
    ([["1", "5", "9"]] : List (List String)).length = ([["1", "5"]] : List (List String)).length ∧
    (analyzerRun ["a", "b"] [["1", "5", "9"]]).err = none ∧
    (analyzerRun ["a", "b"] [["1", "5"]]).err = none ∧
    (analyzerRun ["a", "b"] [["1", "5", "9"]]).imageWritten = true ∧
    (analyzerRun ["a", "b"] [["1", "5"]]).imageWritten = true ∧
    (analyzerRun ["a", "b"] [["1", "5", "9"]]).stats ≠ (analyzerRun ["a", "b"] [["1", "5"]]).stats := by
  refine ⟨rfl, rfl, rfl, rfl, rfl, rfl, ?_⟩
  intro heq
  have h9 : (analyzerRun ["a", "b"] [["1", "5", "9"]]).stats =
      some (analyze [((9 : ℕ) : ℚ)]) := rfl
  have h5 : (analyzerRun ["a", "b"] [["1", "5"]]).stats =
      some (analyze [((5 : ℕ) : ℚ)]) := rfl
  rw [h9, h5] at heq
  have hp : (analyze [((9 : ℕ) : ℚ)]).p50 = (analyze [((5 : ℕ) : ℚ)]).p50 := by
    injection heq with heq'
    rw [heq']
  have e9 : (analyze [((9 : ℕ) : ℚ)]).p50 = some ((9 : ℕ) : ℚ) := by
    show quantile [((9 : ℕ) : ℚ)] (1/2) = _
    rw [quantile_ne_nil _ _ (by simp), interp_singleton]
  have e5 : (analyze [((5 : ℕ) : ℚ)]).p50 = some ((5 : ℕ) : ℚ) := by
    show quantile [((5 : ℕ) : ℚ)] (1/2) = _
    rw [quantile_ne_nil _ _ (by simp), interp_singleton]
  rw [e9, e5] at hp
  injection hp with hv
  norm_num at hv

/-- C10 amended: the Analyzer's statistics and filtered set depend only on
the timing column the script reads — the second *named* column,
`indexLevels` fields in when the first row's extra leading fields become the
index.  Two inputs that pandas parses (no row wider than the expected field
count), whose headers have the two required columns, and whose extracted
timing columns agree, produce identical runs (same statistics, same filtered
set, same outcome), whatever their other columns hold. -/
theorem analyzer_depends_only_on_timing_column
    (hdr1 hdr2 : List String) (rows1 rows2 : List (List String))
    (hw1 : rows1.all (fun r => decide (r.length ≤ expectedFields hdr1 rows1)) = true)
    (hw2 : rows2.all (fun r => decide (r.length ≤ expectedFields hdr2 rows2)) = true)
    (hc1 : 2 ≤ hdr1.length) (hc2 : 2 ≤ hdr2.length)
    (hcol : extractCol (indexLevels hdr1 rows1) rows1 =
      extractCol (indexLevels hdr2 rows2) rows2) :
    analyzerRun hdr1 rows1 = analyzerRun hdr2 rows2 := by
  unfold analyzerRun
  rw [if_neg (by rw [hw1]; simp), if_neg (Nat.not_lt.mpr hc1),
    if_neg (by rw [hw2]; simp), if_neg (Nat.not_lt.mpr hc2), hcol]

/-- Witness for the amended C10: two inputs differing in the first column
only. -/
theorem analyzer_depends_only_on_timing_column_witness :
    analyzerRun ["a", "b"] [["x", "5"]] = analyzerRun ["c", "d"] [["y", "5"]] :=
  analyzer_depends_only_on_timing_column ["a", "b"] ["c", "d"] [["x", "5"]] [["y", "5"]]
    (by decide) (by decide) (by decide) (by decide) (by decide)

end PacoSako
